import Mathlib

/-!
Verification of the hlscheck HLS stream monitor.

This file gives a shallow embedding of the two core Go packages of the
repository — the M3U8 playlist parser (package `plist`) and the per-variant
segment checker (package `checker`) — and proves the frozen claims about
them.  Pure Go functions become Lean functions; the in-place mutation of
`*plist.Plist` performed by `Parse` is made explicit by returning the final
value of the mutated struct next to the error, so that the state the caller
observes after a failed parse is part of the embedding.  Go `uint64`
arithmetic is modelled on `Nat` with an explicit `% 2 ^ 64` at each point
where the Go code can overflow.  Calls into the Go standard library
(`strings`, `strconv`, `net/url`, `path`) are modelled by the `go...`
functions below, each faithful to the documented stdlib behaviour on the
subset of inputs this program exercises; the doc comment of each such
function records the subset.
-/

namespace Hlscheck

/-- Boolean prefix test on character lists; model of the comparison done by
Go `strings.HasPrefix` (byte-wise prefix; on the ASCII tag literals used by
this program, byte-wise and character-wise prefix coincide). -/
def listPfx : List Char → List Char → Bool
  | [], _ => true
  | _ :: _, [] => false
  | a :: ps, b :: ss => if a = b then listPfx ps ss else false

/-- Model of Go `strings.HasPrefix s p`. -/
def goHasPfx (s p : String) : Bool :=
  listPfx p.data s.data

/-- Model of Go `strings.CutPrefix s p`, returning the remainder and the
found flag. -/
def goCutPfx (s p : String) : String × Bool :=
  if goHasPfx s p then (⟨s.data.drop p.data.length⟩, true) else (s, false)

/-- Splitting a character list at every occurrence of the separator `c`;
model of Go `strings.Split` for a one-character separator (the program only
splits on `"\n"`, `","` and `"="`).  Like Go's `Split`, the result is never
empty and splitting the empty string yields `[[]]`. -/
def goSplitChar (c : Char) : List Char → List (List Char)
  | [] => [[]]
  | x :: xs =>
    if x = c then [] :: goSplitChar c xs
    else
      match goSplitChar c xs with
      | [] => [[x]]
      | y :: ys => (x :: y) :: ys

/-- Model of Go `strings.Split s c` for a one-character separator. -/
def goSplit (s : String) (c : Char) : List String :=
  (goSplitChar c s.data).map (fun l => ⟨l⟩)

/-- Model of Go `strings.Trim s cutset`: remove leading and trailing
characters that occur in `cutset`. -/
def goTrimChars (s : String) (cutset : List Char) : String :=
  ⟨(((s.data.dropWhile (· ∈ cutset)).reverse.dropWhile (· ∈ cutset)).reverse)⟩

/-- Value of a decimal digit character, `none` on any other character;
mirrors the `'0' <= c && c <= '9'` range test of Go's strconv. -/
def goDigitVal (c : Char) : Option Nat :=
  if '0' ≤ c ∧ c ≤ '9' then some (c.toNat - '0'.toNat) else none

/-- Left-to-right decimal accumulation over a character list, failing on the
first non-digit. -/
def digitsValAux (acc : Nat) : List Char → Option Nat
  | [] => some acc
  | c :: cs =>
    match goDigitVal c with
    | none => none
    | some d => digitsValAux (acc * 10 + d) cs

/-- Decimal value of a character list consisting solely of digits. -/
def digitsVal (l : List Char) : Option Nat :=
  digitsValAux 0 l

/-- Model of Go `strconv.ParseUint s 10 64`: the string must be non-empty,
consist solely of decimal digits (Go's base-10 `ParseUint` accepts neither a
sign nor underscores) and denote a value below `2 ^ 64`; Go reports a range
error — treated as failure by this program — for larger values. -/
def goParseUint (s : String) : Option Nat :=
  if s.data.isEmpty then none
  else
    match digitsVal s.data with
    | none => none
    | some v => if v < 2 ^ 64 then some v else none

/-- Model of Go `strconv.ParseFloat s 64` on the subset of plain decimal
literals `[+-]?digits[.digits]?` with at least one digit.  The Go function
additionally accepts exponent, hexadecimal, `inf` and `NaN` forms, which no
claim exercises; the parsed value is kept as the exact rational rather than
the rounded binary float64, which no claim inspects. -/
def goParseFloat (s : String) : Option Rat :=
  let (neg, rest) :=
    match s.data with
    | '-' :: r => (true, r)
    | '+' :: r => (false, r)
    | r => (false, r)
  match goSplitChar '.' rest with
  | [intPart] =>
    if intPart.isEmpty then none
    else
      match digitsVal intPart with
      | none => none
      | some i => some (if neg then -(i : Rat) else (i : Rat))
  | [intPart, fracPart] =>
    if intPart.isEmpty ∧ fracPart.isEmpty then none
    else
      match digitsVal intPart, digitsVal fracPart with
      | some i, some f =>
        let v : Rat := (i : Rat) + (f : Rat) / ((10 : Rat) ^ fracPart.length)
        some (if neg then -v else v)
      | _, _ => none
  | _ => none

/-- Model of a parsed `net/url.URL` restricted to the shape
`scheme://host/path` actually used by this program: no query, fragment,
userinfo or percent-escapes. -/
structure GoURL where
  scheme : String
  host : String
  path : String
deriving DecidableEq, Repr

/-- Split a character list at the first occurrence of `"://"`. -/
def splitSchemeAux : List Char → Option (List Char × List Char)
  | [] => none
  | ':' :: '/' :: '/' :: rest => some ([], rest)
  | c :: rest =>
    match splitSchemeAux rest with
    | none => none
    | some (pre, post) => some (c :: pre, post)

/-- Model of Go `url.Parse` on the subset described at `GoURL`: with a
`"://"` present the input is split into scheme, host (up to the first slash)
and path; otherwise the whole input is taken as the path.  Go's `url.Parse`
can fail on inputs outside this subset (control characters, malformed
escapes); no claim exercises such inputs, so the model is total. -/
def goUrlParse (s : String) : GoURL :=
  match splitSchemeAux s.data with
  | none => { scheme := "", host := "", path := s }
  | some (pre, post) =>
    let host := post.takeWhile (fun c => c ≠ '/')
    let path := post.dropWhile (fun c => c ≠ '/')
    { scheme := ⟨pre⟩, host := ⟨host⟩, path := ⟨path⟩ }

/-- Model of Go `url.URL.String` on the `GoURL` subset. -/
def goUrlString (u : GoURL) : String :=
  if u.scheme = "" then u.path else u.scheme ++ "://" ++ u.host ++ u.path

/-- Model of Go `path.Dir` on already-clean paths: everything up to the last
slash, with the Go conventions `Dir "x" = "."` and `Dir "/x" = "/"`.  The
`path.Clean` normalisation of `.` and `..` segments is not modelled; the
playlist URLs the claims use contain none. -/
def goPathDir (p : String) : String :=
  match p.data.reverse.dropWhile (fun c => c ≠ '/') with
  | [] => "."
  | ['/'] => "/"
  | _ :: rest => ⟨rest.reverse⟩

/-- Model of Go `url.JoinPath base elem` on the subset used here: the base
parses under `goUrlParse`, its path is non-empty, and `elem` contains no
`.`/`..` segments or characters needing escaping, so joining is appending
one slash and the element to the base path. -/
def goJoinPath (base el : String) : String :=
  let u := goUrlParse base
  goUrlString { u with path := u.path ++ "/" ++ el }

/-- Playlist kind; embedding of `plist.Type` with Go's `iota` zero value
`VariantPlist`. -/
inductive PlistType
  | VariantPlist
  | MasterPlist
deriving DecidableEq, Repr

instance : Inhabited PlistType := ⟨.VariantPlist⟩

/-- Embedding of `plist.Entry`.  Field defaults are the Go zero values, so
`{}` is Go's `Entry{}`.  `DurationSec` carries the exact rational parsed by
`goParseFloat` in place of the Go float64. -/
structure Entry where
  BandwidthBps : Nat := 0
  Codecs : String := ""
  MediaSequence : Nat := 0
  DurationSec : Rat := 0
  ExtraInfo : String := ""
  URL : String := ""
deriving DecidableEq, Repr

instance : Inhabited Entry := ⟨{}⟩

/-- Embedding of `plist.Plist`; `{}` is Go's `Plist{}`.  The Go field `Type`
is named `plType` because `Type` is reserved in Lean. -/
structure Plist where
  plType : PlistType := .VariantPlist
  Entries : List Entry := []
  CurrentMediaSequence : Nat := 0
  TargetDurationSec : Nat := 0
deriving DecidableEq, Repr

instance : Inhabited Plist := ⟨{}⟩

/-- Decidable equality for tag-parser results, used to evaluate concrete
instances of the parser hypotheses. -/
instance : DecidableEq (Except String Entry) := fun x y =>
  match x, y with
  | .ok a, .ok b =>
    if h : a = b then isTrue (h ▸ rfl) else isFalse fun he => h (Except.ok.inj he)
  | .error a, .error b =>
    if h : a = b then isTrue (h ▸ rfl) else isFalse fun he => h (Except.error.inj he)
  | .ok _, .error _ => isFalse fun he => Except.noConfusion he
  | .error _, .ok _ => isFalse fun he => Except.noConfusion he

/-- Errors returned by the embedded `Parse`: a top-level URL parse failure,
an error from one of the tag parsers wrapped by `fmt.Errorf("line %d: %v",
lineIdx, err)` — `lineIdx` is the index Go's `range` produced — or the
missing extended-M3U-header error raised after the pass. -/
inductive GoErr
  | urlParseError
  | lineErr (lineIdx : Nat) (msg : String)
  | notExtM3U
deriving DecidableEq, Repr

/-- Recursion over the attribute list of an `#EXT-X-STREAM-INF` tag,
carrying the entry under mutation and the `bandwidthPresent` flag; embedding
of the `for _, attr := range attrList` loop of `parseStreamInfTag`. -/
def streamInfAttrs : List String → Entry → Bool → Except String (Entry × Bool)
  | [], e, bp => .ok (e, bp)
  | attr :: rest, e, bp =>
    let attrSplit := goSplit attr '='
    if attrSplit.length < 2 then .error "malformed attribute in EXT-X-STREAM-INF tag"
    else
      let attrName := attrSplit.headD ""
      let attrValue := String.intercalate "=" attrSplit.tail
      if attrName = "BANDWIDTH" then
        match goParseUint attrValue with
        | none => .error "unable to parse bandwidth attribute in EXT-X-STREAM-INF tag"
        | some bw => streamInfAttrs rest { e with BandwidthBps := bw } true
      else if attrName = "CODECS" then
        streamInfAttrs rest { e with Codecs := goTrimChars attrValue ['"', ' '] } bp
      else streamInfAttrs rest e bp

/-- Embedding of `plist.parseStreamInfTag`; the Go function mutates `e` and
returns an error, modelled as `Except` over the final entry. -/
def parseStreamInfTag (e : Entry) (tag : String) : Except String Entry :=
  let cut := goCutPfx tag "EXT-X-STREAM-INF:"
  if !cut.2 then .error "malformed EXT-X-STREAM-INF tag"
  else
    match streamInfAttrs (goSplit cut.1 ',') e false with
    | .error msg => .error msg
    | .ok (e1, bandwidthPresent) =>
      if !bandwidthPresent then .error "missing bandwidth attribute in EXT-X-STREAM-INF tag"
      else .ok e1

/-- Embedding of `plist.parseInfTag`. -/
def parseInfTag (e : Entry) (tag : String) : Except String Entry :=
  let cut := goCutPfx tag "EXTINF:"
  if !cut.2 then .error "malformed EXTINF tag"
  else
    let attrList := goSplit cut.1 ','
    if attrList.length = 0 then .error "EXTINF tag missing segment duration"
    else
      match goParseFloat (attrList.headD "") with
      | none => .error "unable to parse segment duration from EXTINF tag"
      | some d =>
        let e1 := { e with DurationSec := d }
        if attrList.length > 1 then
          .ok { e1 with ExtraInfo := String.intercalate "," attrList.tail }
        else .ok e1

/-- Embedding of `plist.parseMediaSequenceTag`: on success the playlist's
`CurrentMediaSequence` is assigned — unconditionally — the parsed value. -/
def parseMediaSequenceTag (pl : Plist) (tag : String) : Except String Plist :=
  let cut := goCutPfx tag "EXT-X-MEDIA-SEQUENCE:"
  if !cut.2 then .error "malformed EXT-X-MEDIA-SEQUENCE tag"
  else
    match goParseUint cut.1 with
    | none => .error "unable to parse media sequence from EXT-X-MEDIA-SEQUENCE tag"
    | some mediaSequence => .ok { pl with CurrentMediaSequence := mediaSequence }

/-- Embedding of `plist.parseTargetDurationTag`. -/
def parseTargetDurationTag (pl : Plist) (tag : String) : Except String Plist :=
  let cut := goCutPfx tag "EXT-X-TARGETDURATION:"
  if !cut.2 then .error "malformed EXT-X-TARGETDURATION tag"
  else
    match goParseUint cut.1 with
    | none => .error "unable to parse target duration from EXT-X-TARGETDURATION tag"
    | some targetDurationSec => .ok { pl with TargetDurationSec := targetDurationSec }

/-- The mutable state of one pass of `Parse`: the playlist being mutated
through the pointer, the `isExtM3U` flag and the pending `currentEntry`. -/
structure ParseState where
  pl : Plist
  isExtM3U : Bool
  currentEntry : Entry
deriving DecidableEq, Repr

/-- Embedding of one iteration of the `for lineIdx, line := range ...` loop
body of `plist.Parse`.  On an error the returned state carries exactly the
mutations the Go code performed before the `return` (in particular `pl.Type`
is already reassigned when a stream-info or segment-info tag fails to
parse).  The Go `url.JoinPath` error branch is unreachable under the total
`goJoinPath` model, so the reference-line branch always succeeds. -/
def parseLine (baseUrl : String) (lineIdx : Nat) (st : ParseState) (line : String) :
    ParseState × Option GoErr :=
  if goHasPfx line "#" then
    if !goHasPfx line "#EXT" then (st, none)
    else
      let extTag := (goCutPfx line "#").1
      if goHasPfx extTag "EXTM3U" then ({ st with isExtM3U := true }, none)
      else if goHasPfx extTag "EXT-X-STREAM-INF" then
        let st1 := { st with pl := { st.pl with plType := .MasterPlist }, currentEntry := {} }
        match parseStreamInfTag {} extTag with
        | .error msg => (st1, some (.lineErr lineIdx msg))
        | .ok e => ({ st1 with currentEntry := e }, none)
      else if goHasPfx extTag "EXTINF" then
        let st1 := { st with pl := { st.pl with plType := .VariantPlist }, currentEntry := {} }
        match parseInfTag {} extTag with
        | .error msg => (st1, some (.lineErr lineIdx msg))
        | .ok e => ({ st1 with currentEntry := e }, none)
      else if goHasPfx extTag "EXT-X-MEDIA-SEQUENCE" then
        match parseMediaSequenceTag st.pl extTag with
        | .error msg => (st, some (.lineErr lineIdx msg))
        | .ok pl1 => ({ st with pl := pl1 }, none)
      else if goHasPfx extTag "EXT-X-TARGETDURATION" then
        match parseTargetDurationTag st.pl extTag with
        | .error msg => (st, some (.lineErr lineIdx msg))
        | .ok pl1 => ({ st with pl := pl1 }, none)
      else (st, none)
  else if line.data.length = 0 then (st, none)
  else
    let url := if goHasPfx line "http" then line else goJoinPath baseUrl line
    let e := { st.currentEntry with URL := url, MediaSequence := st.pl.CurrentMediaSequence }
    ({ st with
        pl := { st.pl with
                  CurrentMediaSequence := (st.pl.CurrentMediaSequence + 1) % 2 ^ 64,
                  Entries := st.pl.Entries ++ [e] },
        currentEntry := {} }, none)

/-- The line loop of `plist.Parse`: lines are processed in order with the
index Go's `range` supplies, stopping at the first error with the state the
Go code holds at that `return`. -/
def parseLinesAux (baseUrl : String) : Nat → ParseState → List String → ParseState × Option GoErr
  | _, st, [] => (st, none)
  | i, st, line :: rest =>
    match parseLine baseUrl i st line with
    | (st1, none) => parseLinesAux baseUrl (i + 1) st1 rest
    | (st1, some e) => (st1, some e)

/-- The base URL `plist.Parse` derives before the loop: the playlist URL
with the last path component removed. -/
def parseBaseUrl (plUrlStr : String) : String :=
  let plUrl := goUrlParse plUrlStr
  goUrlString { plUrl with path := goPathDir plUrl.path }

/-- Embedding of `plist.Parse`.  The Go function mutates `pl` through a
pointer and returns an error; the embedding returns the final value of the
struct next to the error, which is exactly what the caller observes.  The
missing extended-M3U-header check runs only after the loop over all lines
has finished without error. -/
def Parse (pl : Plist) (plUrlStr : String) (str : String) : Plist × Option GoErr :=
  let baseUrl := parseBaseUrl plUrlStr
  let st0 : ParseState := { pl := pl, isExtM3U := false, currentEntry := {} }
  match parseLinesAux baseUrl 0 st0 (goSplit str '\n') with
  | (st, some e) => (st.pl, some e)
  | (st, none) => (st.pl, if st.isExtM3U then none else some .notExtM3U)

/-- The sequence of values `pl.CurrentMediaSequence` passes through during
one call of `Parse`, starting with the value before the first line and
recording the value after each processed line; the pass stops at the first
erroring line, as `Parse` does. -/
def cursorTraceAux (baseUrl : String) : Nat → ParseState → List String → List Nat
  | _, _, [] => []
  | i, st, line :: rest =>
    match parseLine baseUrl i st line with
    | (st1, none) => st1.pl.CurrentMediaSequence :: cursorTraceAux baseUrl (i + 1) st1 rest
    | (st1, some _) => [st1.pl.CurrentMediaSequence]

/-- Cursor trace of a full `Parse` call on the given playlist text. -/
def parseCursorTrace (pl : Plist) (plUrlStr : String) (str : String) : List Nat :=
  let baseUrl := parseBaseUrl plUrlStr
  let st0 : ParseState := { pl := pl, isExtM3U := false, currentEntry := {} }
  st0.pl.CurrentMediaSequence :: cursorTraceAux baseUrl 0 st0 (goSplit str '\n')

/-- Embedding of `checker.CheckSegmentResult` with its Go constructor
names. -/
inductive CheckSegmentResult
  | CheckOK
  | CheckClientError
  | CheckServerError
  | CheckProtocolError
  | CheckEmptySegmentError
deriving DecidableEq, Repr

/-- Outcome of reading the body of an HTTP response: `io.ReadAll` may fail,
otherwise it yields the body bytes. -/
inductive HTTPBody
  | readError
  | bytes (data : List Nat)
deriving DecidableEq, Repr

/-- Outcome of one `http.Get`: a transport-level error, or a response with a
status code (a Go `int`) and a body. -/
inductive HTTPResult
  | getError
  | response (statusCode : Int) (body : HTTPBody)
deriving DecidableEq, Repr

/-- Embedding of `checker.Checker`; `New url` below builds the Go zero
value with only `URL` set.  The four counters are Go `uint64` values. -/
structure Checker where
  URL : String := ""
  CurrentMediaSequence : Nat := 0
  ClientErrorCount : Nat := 0
  ServerErrorCount : Nat := 0
  ProtocolErrorCount : Nat := 0
  EmptySegmentErrorCount : Nat := 0
deriving DecidableEq, Repr

instance : Inhabited Checker := ⟨{}⟩

/-- Embedding of the struct literal built by `checker.New` (the goroutine it
spawns is the loop modelled by `loopCycle`). -/
def New (url : String) : Checker :=
  { URL := url }

/-- Embedding of `checker.Checker.CheckSegment`.  The outcome of the single
`http.Get(seg.URL)` the function performs is the parameter `http_get`; the
classification logic is the function body. -/
def CheckSegment (http_get : HTTPResult) : CheckSegmentResult :=
  match http_get with
  | .getError => .CheckProtocolError
  | .response statusCode body =>
    if statusCode > 500 then .CheckServerError
    else if statusCode > 400 then .CheckClientError
    else
      match body with
      | .readError => .CheckProtocolError
      | .bytes data => if data.length = 0 then .CheckEmptySegmentError else .CheckOK

/-- Embedding of the retry loop of `checker.Checker.RetryCheckSegment`:
`numRetries` counts down from 3; along with the final `result` the embedding
returns how many times `CheckSegment` ran and how many times
`time.Sleep(250 * time.Millisecond)` ran.  `check k` is the result of the
`k`-th (0-based) `CheckSegment` call. -/
def retryLoop (check : Nat → CheckSegmentResult) :
    Nat → Nat → Nat → CheckSegmentResult → CheckSegmentResult × Nat × Nat
  | 0, attempts, sleeps, result => (result, attempts, sleeps)
  | numRetries + 1, attempts, sleeps, _ =>
    let result := check attempts
    if result = .CheckOK then (result, attempts + 1, sleeps)
    else retryLoop check numRetries (attempts + 1) (sleeps + 1) result

/-- Embedding of `checker.Checker.RetryCheckSegment` for the segment `seg`.
`http_get k` is the outcome of the `http.Get` performed by the `k`-th
(0-based) `CheckSegment` attempt on `seg.URL`.  Returns the checker after
the final `switch` over the result (which increments at most one error
counter), the final result, the number of attempts and the number of
sleeps. -/
def RetryCheckSegment (http_get : Nat → HTTPResult) (c : Checker) (seg : Entry) :
    Checker × CheckSegmentResult × Nat × Nat :=
  let r := retryLoop (fun k => CheckSegment (http_get k)) 3 0 0 .CheckOK
  let c1 :=
    match r.1 with
    | .CheckClientError => { c with ClientErrorCount := (c.ClientErrorCount + 1) % 2 ^ 64 }
    | .CheckServerError => { c with ServerErrorCount := (c.ServerErrorCount + 1) % 2 ^ 64 }
    | .CheckProtocolError => { c with ProtocolErrorCount := (c.ProtocolErrorCount + 1) % 2 ^ 64 }
    | .CheckEmptySegmentError =>
      { c with EmptySegmentErrorCount := (c.EmptySegmentErrorCount + 1) % 2 ^ 64 }
    | .CheckOK => c
  (c1, r)

/-- Observable effects of the `for _, seg := range pl.Entries` loop of one
cycle of `checker.Checker.Loop`: the cursor value, the entries that passed
the `seg.MediaSequence <= c.CurrentMediaSequence` skip test (in order), and
the arguments of the `RetryCheckSegment` calls the loop body makes. -/
structure CycleTrace where
  CurrentMediaSequence : Nat
  newEntries : List Entry
  dispatched : List Entry
deriving DecidableEq, Repr

/-- Embedding of the loop body of one `Loop` cycle.  The Go body after the
skip test consists of the single statement
`c.CurrentMediaSequence = seg.MediaSequence`; it contains no call of
`RetryCheckSegment`, so `dispatched` is never extended. -/
def loopCycleStep (tr : CycleTrace) (seg : Entry) : CycleTrace :=
  if seg.MediaSequence ≤ tr.CurrentMediaSequence then tr
  else
    { CurrentMediaSequence := seg.MediaSequence,
      newEntries := tr.newEntries ++ [seg],
      dispatched := tr.dispatched }

/-- One successful cycle of `checker.Checker.Loop`: the playlist `pl` is the
result of a `FetchAndParse` that returned no error, and `cursor` is the
checker's `CurrentMediaSequence` entering the cycle. -/
def loopCycle (cursor : Nat) (pl : Plist) : CycleTrace :=
  pl.Entries.foldl loopCycleStep
    { CurrentMediaSequence := cursor, newEntries := [], dispatched := [] }

/-- Join a list of lines with `'\n'`; inverse of `goSplit · '\n'` on lines
free of newlines, used to build concrete playlist texts. -/
def joinLinesCh : List (List Char) → List Char
  | [] => []
  | [l] => l
  | l :: ls => l ++ '\n' :: joinLinesCh ls

/-- A playlist text with the given lines. -/
def mkText (lines : List String) : String :=
  ⟨joinLinesCh (lines.map (fun s => s.data))⟩

/-- The lines of a well-formed variant playlist: the extended-M3U header, a
media-sequence tag whose value field is `sStr`, then for each pair a
segment-info tag with attribute text `p.1` and a reference line `p.2.2`
(`p.2.1` is the entry the segment-info tag parses to). -/
def variantLines (sStr : String) (segs : List (String × Entry × String)) : List String :=
  "#EXTM3U" :: ("#EXT-X-MEDIA-SEQUENCE:" ++ sStr) ::
    segs.flatMap (fun p => ["#EXTINF:" ++ p.1, p.2.2])

/-- The text of a well-formed variant playlist built from `variantLines`. -/
def variantPlaylistText (sStr : String) (segs : List (String × Entry × String)) : String :=
  mkText (variantLines sStr segs)

/-- A small concrete variant playlist URL used by several concrete
theorems. -/
def exampleVariantUrl : String := "https://host/path/live.m3u8"

/-- A freshly fetched variant playlist text with one segment of media
sequence 1. -/
def examplePlaylistText : String := "#EXTM3U\n#EXT-X-MEDIA-SEQUENCE:1\n#EXTINF:10,\nseg1.ts"

/-- The entry `examplePlaylistText` parses to. -/
def exampleNewSegment : Entry :=
  { MediaSequence := 1, DurationSec := 10, URL := "https://host/path/seg1.ts" }

/-- The `dispatched` accumulator of a cycle trace is never extended, by any
prefix of the entry list. -/
theorem foldl_loopCycleStep_dispatched (l : List Entry) (tr : CycleTrace) :
    (l.foldl loopCycleStep tr).dispatched = tr.dispatched := by
  induction l generalizing tr with
  | nil => rfl
  | cons a l ih =>
    rw [List.foldl_cons, ih]
    unfold loopCycleStep
    split <;> rfl

/-- Entries appended to `newEntries` passed the strict comparison against a
cursor, hence have a positive media sequence. -/
theorem foldl_loopCycleStep_newEntries (l : List Entry) (tr : CycleTrace)
    (h : ∀ e ∈ tr.newEntries, e.MediaSequence ≠ 0) :
    ∀ e ∈ (l.foldl loopCycleStep tr).newEntries, e.MediaSequence ≠ 0 := by
  induction l generalizing tr with
  | nil => exact h
  | cons a l ih =>
    rw [List.foldl_cons]
    refine ih _ ?_
    unfold loopCycleStep
    split
    · exact h
    · intro e he
      rcases List.mem_append.1 he with h1 | h1
      · exact h e h1
      · rcases List.mem_singleton.1 h1 with rfl
        omega

/-- C1: a successful monitor cycle identifies the entries whose media
sequence exceeds the stored cursor and advances the cursor over them, but
the loop body of `Checker.Loop` contains no call of `RetryCheckSegment`
(that function is dead code), so no entry is ever dispatched to the segment
checker: the dispatched list of every cycle is empty, even on a cycle whose
freshly parsed playlist contains a new entry. -/
theorem loop_cycle_never_dispatches :
    (∀ (cursor : Nat) (pl : Plist), (loopCycle cursor pl).dispatched = []) ∧
    (loopCycle 0 (Parse {} exampleVariantUrl examplePlaylistText).1).newEntries =
      [exampleNewSegment] ∧
    (loopCycle 0 (Parse {} exampleVariantUrl examplePlaylistText).1).dispatched = [] ∧
    (loopCycle 0 (Parse {} exampleVariantUrl examplePlaylistText).1).CurrentMediaSequence = 1 := by
  refine ⟨fun cursor pl => foldl_loopCycleStep_dispatched _ _, ?_, ?_, ?_⟩ <;> decide

/-- C2 counterexample: status code exactly 500 does not fall outside both
buckets — the second test `resp.StatusCode > 400` catches it, so a response
with status 500 is classified as a client error. -/
theorem checkSegment_500_client_error_cex :
    CheckSegment (.response 500 (.bytes [1])) = .CheckClientError := by decide

/-- C2 (amended): `CheckSegment` classifies first-match-wins — transport
failure → protocol error; else status > 500 → server error; else status
> 400 → client error, so exactly 400 falls into neither bucket while
exactly 500 falls into the client-error bucket; else a body-read failure →
protocol error, an empty body → empty-segment error, a non-empty body →
OK.  In particular 404 → client error, 503 → server error, 200 with empty
body → empty segment, 200 with non-empty body → OK. -/
theorem checkSegment_classification :
    CheckSegment .getError = .CheckProtocolError ∧
    (∀ (s : Int) (b : HTTPBody), 500 < s → CheckSegment (.response s b) = .CheckServerError) ∧
    (∀ (s : Int) (b : HTTPBody), 400 < s → s ≤ 500 →
      CheckSegment (.response s b) = .CheckClientError) ∧
    (∀ b : HTTPBody, CheckSegment (.response 400 b) ≠ .CheckClientError ∧
      CheckSegment (.response 400 b) ≠ .CheckServerError) ∧
    (∀ b : HTTPBody, CheckSegment (.response 500 b) = .CheckClientError) ∧
    (∀ s : Int, s ≤ 400 → CheckSegment (.response s .readError) = .CheckProtocolError) ∧
    (∀ s : Int, s ≤ 400 → CheckSegment (.response s (.bytes [])) = .CheckEmptySegmentError) ∧
    (∀ (s : Int) (d : List Nat), s ≤ 400 → d ≠ [] →
      CheckSegment (.response s (.bytes d)) = .CheckOK) ∧
    CheckSegment (.response 404 (.bytes [1])) = .CheckClientError ∧
    CheckSegment (.response 503 (.bytes [1])) = .CheckServerError ∧
    CheckSegment (.response 200 (.bytes [])) = .CheckEmptySegmentError ∧
    CheckSegment (.response 200 (.bytes [1])) = .CheckOK := by
  refine ⟨rfl, ?_, ?_, ?_, ?_, ?_, ?_, ?_, by decide, by decide, by decide, by decide⟩
  · intro s b hs
    simp [CheckSegment, hs]
  · intro s b hs1 hs2
    simp [CheckSegment, hs1, show ¬(500 < s) by omega]
  · intro b
    cases b with
    | readError => exact ⟨by decide, by decide⟩
    | bytes d =>
      refine ⟨?_, ?_⟩ <;>
        · simp only [CheckSegment]
          norm_num
          split <;> simp
  · intro b
    cases b with
    | readError => decide
    | bytes d =>
      simp only [CheckSegment]
      norm_num
  · intro s hs
    simp [CheckSegment, show ¬(500 < s) by omega, show ¬(400 < s) by omega]
  · intro s hs
    simp [CheckSegment, show ¬(500 < s) by omega, show ¬(400 < s) by omega]
  · intro s d hs hd
    simp [CheckSegment, show ¬(500 < s) by omega, show ¬(400 < s) by omega,
      List.length_eq_zero, hd]

/-- C2 witness: the universally quantified clauses of
`checkSegment_classification` instantiated at concrete status codes. -/
theorem checkSegment_classification_witness :
    CheckSegment (.response 501 .readError) = .CheckServerError ∧
    CheckSegment (.response 401 .readError) = .CheckClientError ∧
    CheckSegment (.response 400 .readError) = .CheckProtocolError ∧
    CheckSegment (.response 399 (.bytes [0])) = .CheckOK :=
  ⟨checkSegment_classification.2.1 501 .readError (by decide),
   checkSegment_classification.2.2.1 401 .readError (by decide) (by decide),
   checkSegment_classification.2.2.2.2.2.1 400 (by decide),
   checkSegment_classification.2.2.2.2.2.2.2.1 399 [0] (by decide) (by decide)⟩

/-- C10: the skip test `seg.MediaSequence <= c.CurrentMediaSequence`
compares against an unsigned cursor, so an entry with media sequence 0 —
in particular the leading segments of a variant playlist that carries no
media-sequence tag, which are numbered from the zero-initialised parse
cursor — never passes the newness test of any monitor cycle. -/
theorem zero_sequence_never_new :
    (∀ (cursor : Nat) (pl : Plist) (e : Entry),
        e ∈ (loopCycle cursor pl).newEntries → e.MediaSequence ≠ 0) ∧
    (Parse {} exampleVariantUrl "#EXTM3U\n#EXTINF:10,\nseg1.ts\n#EXTINF:10,\nseg2.ts").1.Entries.map
        (fun e => e.MediaSequence) = [0, 1] := by
  constructor
  · intro cursor pl e he
    exact foldl_loopCycleStep_newEntries pl.Entries _ (by intro e h; cases h) e he
  · decide

/-- C10 witness: a concrete entry of media sequence 5 passes the newness
test against cursor 0 and indeed has a non-zero sequence number. -/
theorem zero_sequence_never_new_witness :
    ({ MediaSequence := 5 } : Entry) ∈
      (loopCycle 0 { Entries := [{ MediaSequence := 5 }] }).newEntries ∧
    ({ MediaSequence := 5 } : Entry).MediaSequence ≠ 0 :=
  ⟨by decide, zero_sequence_never_new.1 0 { Entries := [{ MediaSequence := 5 }] } _ (by decide)⟩

/-- C3: `RetryCheckSegment` calls `CheckSegment` at most 3 times (and at
least once), stops at the first OK result, performs one 250 ms sleep after
every failed attempt — in particular one between any two consecutive
attempts — and ends by incrementing exactly the one counter matching the
final attempt's classification, leaving the checker untouched when the
final result is OK. -/
theorem retryCheckSegment_spec (f : Nat → HTTPResult) (c : Checker) (seg : Entry)
    (c1 : Checker) (result : CheckSegmentResult) (attempts sleeps : Nat)
    (h : RetryCheckSegment f c seg = (c1, result, attempts, sleeps)) :
    (1 ≤ attempts ∧ attempts ≤ 3) ∧
    (∀ k, k + 1 < attempts → CheckSegment (f k) ≠ .CheckOK) ∧
    result = CheckSegment (f (attempts - 1)) ∧
    (result = .CheckOK → c1 = c ∧ sleeps + 1 = attempts) ∧
    (result ≠ .CheckOK → attempts = 3 ∧ sleeps = 3) ∧
    (result = .CheckClientError →
      c1 = { c with ClientErrorCount := (c.ClientErrorCount + 1) % 2 ^ 64 }) ∧
    (result = .CheckServerError →
      c1 = { c with ServerErrorCount := (c.ServerErrorCount + 1) % 2 ^ 64 }) ∧
    (result = .CheckProtocolError →
      c1 = { c with ProtocolErrorCount := (c.ProtocolErrorCount + 1) % 2 ^ 64 }) ∧
    (result = .CheckEmptySegmentError →
      c1 = { c with EmptySegmentErrorCount := (c.EmptySegmentErrorCount + 1) % 2 ^ 64 }) := by
  by_cases h0 : CheckSegment (f 0) = .CheckOK
  · simp [RetryCheckSegment, retryLoop, h0, Prod.mk.injEq] at h
    obtain ⟨hc, hr, ha, hs⟩ := h
    subst hc; subst hr; subst ha; subst hs
    refine ⟨by omega, by omega, by simpa using h0.symm, fun _ => ⟨rfl, rfl⟩, ?_, ?_, ?_, ?_, ?_⟩ <;>
      · intro hne
        simp at hne
  · by_cases h1 : CheckSegment (f 1) = .CheckOK
    · simp [RetryCheckSegment, retryLoop, h0, h1, Prod.mk.injEq] at h
      obtain ⟨hc, hr, ha, hs⟩ := h
      subst hc; subst hr; subst ha; subst hs
      refine ⟨by omega, ?_, by simpa using h1.symm, fun _ => ⟨rfl, rfl⟩, ?_, ?_, ?_, ?_, ?_⟩
      · intro k hk
        have hk0 : k = 0 := by omega
        subst hk0
        exact h0
      all_goals
        intro hne
        simp at hne
    · by_cases h2 : CheckSegment (f 2) = .CheckOK
      · simp [RetryCheckSegment, retryLoop, h0, h1, h2, Prod.mk.injEq] at h
        obtain ⟨hc, hr, ha, hs⟩ := h
        subst hc; subst hr; subst ha; subst hs
        refine ⟨by omega, ?_, by simpa using h2.symm, fun _ => ⟨rfl, rfl⟩, ?_, ?_, ?_, ?_, ?_⟩
        · intro k hk
          have hk01 : k = 0 ∨ k = 1 := by omega
          rcases hk01 with rfl | rfl
          · exact h0
          · exact h1
        all_goals
          intro hne
          simp at hne
      · simp [RetryCheckSegment, retryLoop, h0, h1, h2, Prod.mk.injEq] at h
        obtain ⟨hc, hr, ha, hs⟩ := h
        subst hr; subst ha; subst hs
        refine ⟨by omega, ?_, by simp, ?_, fun _ => ⟨rfl, rfl⟩, ?_, ?_, ?_, ?_⟩
        · intro k hk
          have hk01 : k = 0 ∨ k = 1 := by omega
          rcases hk01 with rfl | rfl
          · exact h0
          · exact h1
        · intro hok
          exact absurd hok h2
        all_goals
          intro hfin
          rw [hfin] at hc
          exact hc.symm

/-- C3 witness: against a segment that fails twice (server errors) and then
succeeds, the final result is OK after 3 attempts with a sleep between
consecutive attempts, and no counter is incremented. -/
theorem retryCheckSegment_spec_witness :
    (RetryCheckSegment
        (fun k => if k < 2 then .response 503 (.bytes []) else .response 200 (.bytes [1]))
        {} {}).2.1 = .CheckOK ∧
    (RetryCheckSegment
        (fun k => if k < 2 then .response 503 (.bytes []) else .response 200 (.bytes [1]))
        {} {}).1 = {} ∧
    (RetryCheckSegment
        (fun k => if k < 2 then .response 503 (.bytes []) else .response 200 (.bytes [1]))
        {} {}).2.2.1 = 3 := by
  have h := retryCheckSegment_spec
    (fun k => if k < 2 then .response 503 (.bytes []) else .response 200 (.bytes [1]))
    {} {} _ _ _ _ rfl
  exact ⟨by decide, (h.2.2.2.1 (by decide)).1, by decide⟩

/-- `goSplitChar` never returns the empty list. -/
theorem goSplitChar_ne_nil (c : Char) (l : List Char) : goSplitChar c l ≠ [] := by
  induction l with
  | nil => simp [goSplitChar]
  | cons x xs ih =>
    unfold goSplitChar
    split
    · simp
    · split
      · simp
      · simp

/-- Splitting a list that does not contain the separator yields that list
alone. -/
theorem goSplitChar_no_sep (c : Char) (l : List Char) (h : c ∉ l) :
    goSplitChar c l = [l] := by
  induction l with
  | nil => rfl
  | cons x xs ih =>
    unfold goSplitChar
    rw [if_neg (by intro he; exact h (he ▸ List.mem_cons_self x xs))]
    rw [ih (fun hm => h (List.mem_cons_of_mem x hm))]

/-- Splitting past a first separator-free chunk. -/
theorem goSplitChar_append_cons (c : Char) (l1 l2 : List Char) (h : c ∉ l1) :
    goSplitChar c (l1 ++ c :: l2) = l1 :: goSplitChar c l2 := by
  induction l1 with
  | nil => simp [goSplitChar]
  | cons x xs ih =>
    rw [List.cons_append]
    unfold goSplitChar
    rw [if_neg (by intro he; exact h (he ▸ List.mem_cons_self x xs))]
    rw [ih (fun hm => h (List.mem_cons_of_mem x hm))]
    simp
    exact goSplitChar.eq_def c l2

/-- `goSplitChar '\n'` is a left inverse of `joinLinesCh` on non-empty line
lists free of newlines. -/
theorem goSplitChar_joinLinesCh (ls : List (List Char)) (hne : ls ≠ [])
    (h : ∀ l ∈ ls, '\n' ∉ l) : goSplitChar '\n' (joinLinesCh ls) = ls := by
  induction ls with
  | nil => exact absurd rfl hne
  | cons l ls ih =>
    cases ls with
    | nil =>
      simp only [joinLinesCh]
      exact goSplitChar_no_sep _ _ (h l (List.mem_cons_self _ _))
    | cons l2 ls2 =>
      show goSplitChar '\n' (l ++ '\n' :: joinLinesCh (l2 :: ls2)) = _
      rw [goSplitChar_append_cons _ _ _ (h l (List.mem_cons_self _ _))]
      rw [ih (by simp) (fun x hx => h x (List.mem_cons_of_mem l hx))]

/-- Rebuilding strings from their character data is the identity. -/
theorem map_mk_data (lines : List String) :
    List.map (fun l => (⟨l⟩ : String)) (List.map (fun s => s.data) lines) = lines := by
  induction lines with
  | nil => rfl
  | cons a as ihm => exact congrArg (List.cons a) ihm

/-- Splitting a text built by `mkText` recovers its lines. -/
theorem goSplit_mkText (lines : List String) (hne : lines ≠ [])
    (h : ∀ l ∈ lines, '\n' ∉ l.data) : goSplit (mkText lines) '\n' = lines := by
  unfold goSplit mkText
  rw [goSplitChar_joinLinesCh _ (by simpa using hne)
    (by intro l hl; obtain ⟨s, hs, rfl⟩ := List.mem_map.1 hl; exact h s hs)]
  exact map_mk_data lines

/-- Effect of the header line. -/
theorem parseLine_extm3u (b : String) (i : Nat) (st : ParseState) :
    parseLine b i st "#EXTM3U" = ({ st with isExtM3U := true }, none) := rfl

/-- A comment line that is not an extended tag is skipped. -/
theorem parseLine_comment (b : String) (i : Nat) (st : ParseState) (line : String)
    (h1 : goHasPfx line "#" = true) (h2 : goHasPfx line "#EXT" = false) :
    parseLine b i st line = (st, none) := by
  unfold parseLine
  rw [h1, h2]
  simp

/-- A blank line is skipped. -/
theorem parseLine_blank (b : String) (i : Nat) (st : ParseState) :
    parseLine b i st "" = (st, none) := rfl

/-- Effect of a media-sequence tag line whose value text parses: the cursor
is assigned the parsed value. -/
theorem parseLine_mediaseq (b : String) (i : Nat) (st : ParseState) (sStr : String) (S : Nat)
    (h : goParseUint sStr = some S) :
    parseLine b i st ("#EXT-X-MEDIA-SEQUENCE:" ++ sStr) =
      ({ st with pl := { st.pl with CurrentMediaSequence := S } }, none) := by
  have e1 : parseLine b i st ("#EXT-X-MEDIA-SEQUENCE:" ++ sStr) =
      match parseMediaSequenceTag st.pl ("EXT-X-MEDIA-SEQUENCE:" ++ sStr) with
      | .error msg => (st, some (.lineErr i msg))
      | .ok pl1 => ({ st with pl := pl1 }, none) := rfl
  have e2 : parseMediaSequenceTag st.pl ("EXT-X-MEDIA-SEQUENCE:" ++ sStr) =
      match goParseUint sStr with
      | none => .error "unable to parse media sequence from EXT-X-MEDIA-SEQUENCE tag"
      | some v => .ok { st.pl with CurrentMediaSequence := v } := rfl
  rw [e1, e2, h]

/-- Effect of a segment-info tag line whose attribute text parses: the
playlist kind becomes variant and the parsed entry becomes pending. -/
theorem parseLine_inf (b : String) (i : Nat) (st : ParseState) (d : String) (e : Entry)
    (h : parseInfTag {} ("EXTINF:" ++ d) = .ok e) :
    parseLine b i st ("#EXTINF:" ++ d) =
      ({ st with pl := { st.pl with plType := .VariantPlist }, currentEntry := e }, none) := by
  have e1 : parseLine b i st ("#EXTINF:" ++ d) =
      match parseInfTag {} ("EXTINF:" ++ d) with
      | .error msg =>
        ({ st with pl := { st.pl with plType := .VariantPlist }, currentEntry := {} },
          some (.lineErr i msg))
      | .ok e0 =>
        ({ st with pl := { st.pl with plType := .VariantPlist }, currentEntry := e0 }, none) := rfl
  rw [e1, h]

/-- A segment-info tag with the non-numeric duration `abc` fails, leaving
the type reassignment in place and reporting the loop index `i`. -/
theorem parseLine_inf_abc (b : String) (i : Nat) (st : ParseState) :
    parseLine b i st "#EXTINF:abc," =
      ({ st with pl := { st.pl with plType := .VariantPlist }, currentEntry := {} },
        some (.lineErr i "unable to parse segment duration from EXTINF tag")) := rfl

/-- Effect of a reference line: the pending entry is completed with the
resolved URL and the cursor value, the cursor advances by one (mod `2^64`),
and the entry is appended. -/
theorem parseLine_ref (b : String) (i : Nat) (st : ParseState) (r : String)
    (h1 : goHasPfx r "#" = false) (h2 : r.data ≠ []) :
    parseLine b i st r =
      ({ st with
          pl := { st.pl with
                    CurrentMediaSequence := (st.pl.CurrentMediaSequence + 1) % 2 ^ 64,
                    Entries := st.pl.Entries ++
                      [{ st.currentEntry with
                          URL := if goHasPfx r "http" then r else goJoinPath b r,
                          MediaSequence := st.pl.CurrentMediaSequence }] },
          currentEntry := {} }, none) := by
  unfold parseLine
  rw [h1]
  simp only [Bool.false_eq_true, if_false]
  have hlen : ¬r.data.length = 0 := by
    intro hl
    exact h2 (List.length_eq_zero.1 hl)
  rw [if_neg hlen]

/-- Inverting one step of `listPfx` on a cons pattern. -/
theorem listPfx_cons_true (a : Char) (ps l : List Char) (h : listPfx (a :: ps) l = true) :
    ∃ t, l = a :: t ∧ listPfx ps t = true := by
  cases l with
  | nil => cases h
  | cons b t =>
    rw [listPfx] at h
    by_cases hab : a = b
    · subst hab
      rw [if_pos rfl] at h
      exact ⟨t, rfl, h⟩
    · rw [if_neg hab] at h
      cases h

/-- Data of the remainder of a successful prefix cut. -/
theorem goCutPfx_data (line p : String) (hp : goHasPfx line p = true) :
    (goCutPfx line p).1.data = line.data.drop p.data.length := by
  unfold goCutPfx
  rw [if_pos hp]

/-- Lines entering a tag branch of `parseLine` carry the hash together with
the tag prefix: the branch conditions compose to a prefix test on the whole
line. -/
theorem tag_branch_pfx (line p : String) (hp : goHasPfx line "#" = true)
    (hm : goHasPfx (goCutPfx line "#").1 p = true) :
    goHasPfx line ("#" ++ p) = true := by
  obtain ⟨t, hd, _⟩ := listPfx_cons_true '#' [] line.data hp
  rw [goHasPfx] at hm
  rw [goCutPfx_data line "#" hp, hd] at hm
  have hm2 : listPfx p.data t = true := hm
  rw [goHasPfx, hd]
  exact hm2

/-- Only a line starting with `#EXTM3U` can set the `isExtM3U` flag; every
other line leaves it unchanged, whether it parses or not. -/
theorem parseLine_isExtM3U (b : String) (i : Nat) (st : ParseState) (line : String)
    (h : goHasPfx line "#EXTM3U" = false) :
    (parseLine b i st line).1.isExtM3U = st.isExtM3U := by
  unfold parseLine
  dsimp only
  split
  case isTrue hp =>
    split
    case isTrue => rfl
    case isFalse =>
      split
      case isTrue hm =>
        have : goHasPfx line ("#" ++ "EXTM3U") = true := tag_branch_pfx line "EXTM3U" hp hm
        rw [show ("#" ++ "EXTM3U" : String) = "#EXTM3U" from rfl] at this
        rw [this] at h
        cases h
      case isFalse =>
        split
        · split <;> rfl
        · split
          · split <;> rfl
          · split
            · split <;> rfl
            · split
              · split <;> rfl
              · rfl
  case isFalse =>
    split
    · rfl
    · rfl

/-- A successful target-duration tag does not move the cursor. -/
theorem parseTargetDurationTag_cursor (pl : Plist) (tag : String) (pl1 : Plist)
    (h : parseTargetDurationTag pl tag = .ok pl1) :
    pl1.CurrentMediaSequence = pl.CurrentMediaSequence := by
  unfold parseTargetDurationTag at h
  dsimp only at h
  split at h
  · cases h
  · split at h
    · cases h
    · injection h with h1
      subst h1
      rfl

/-- One line moves the cursor in only two ways: it leaves it unchanged, or
— on a reference line — advances it by one modulo `2 ^ 64`; the only other
possibility is that the line is a media-sequence tag, which assigns the
cursor unconditionally. -/
theorem parseLine_cursor (b : String) (i : Nat) (st : ParseState) (line : String) :
    (parseLine b i st line).1.pl.CurrentMediaSequence = st.pl.CurrentMediaSequence ∨
    (parseLine b i st line).1.pl.CurrentMediaSequence =
      (st.pl.CurrentMediaSequence + 1) % 2 ^ 64 ∨
    goHasPfx line "#EXT-X-MEDIA-SEQUENCE" = true := by
  unfold parseLine
  dsimp only
  split
  case isTrue hp =>
    split
    case isTrue => exact Or.inl rfl
    case isFalse =>
      split
      case isTrue => exact Or.inl rfl
      case isFalse =>
        split
        · split <;> exact Or.inl rfl
        · split
          · split <;> exact Or.inl rfl
          · split
            case isTrue hm =>
              refine Or.inr (Or.inr ?_)
              have : goHasPfx line ("#" ++ "EXT-X-MEDIA-SEQUENCE") = true :=
                tag_branch_pfx line "EXT-X-MEDIA-SEQUENCE" hp hm
              exact this
            case isFalse =>
              split
              · split
                case h_1 => exact Or.inl rfl
                case h_2 pl1 heq =>
                  exact Or.inl (parseTargetDurationTag_cursor st.pl _ pl1 heq)
              · exact Or.inl rfl
  case isFalse =>
    split
    · exact Or.inl rfl
    · exact Or.inr (Or.inl rfl)

/-- Unfolding one successfully processed line of the parse loop. -/
theorem parseLinesAux_cons_ok (b : String) (i : Nat) (st st1 : ParseState) (l : String)
    (rest : List String) (h : parseLine b i st l = (st1, none)) :
    parseLinesAux b i st (l :: rest) = parseLinesAux b (i + 1) st1 rest := by
  show (match parseLine b i st l with
        | (st1, none) => parseLinesAux b (i + 1) st1 rest
        | (st1, some e) => (st1, some e)) = parseLinesAux b (i + 1) st1 rest
  rw [h]

/-- Unfolding one erroring line of the parse loop. -/
theorem parseLinesAux_cons_err (b : String) (i : Nat) (st st1 : ParseState) (l : String)
    (rest : List String) (e : GoErr) (h : parseLine b i st l = (st1, some e)) :
    parseLinesAux b i st (l :: rest) = (st1, some e) := by
  show (match parseLine b i st l with
        | (st1, none) => parseLinesAux b (i + 1) st1 rest
        | (st1, some e) => (st1, some e)) = (st1, some e)
  rw [h]

/-- Processing lines none of which starts with `#EXTM3U` leaves the header
flag unchanged, whether the pass finishes or stops at an error. -/
theorem parseLinesAux_isExtM3U (b : String) (lines : List String) :
    ∀ (i : Nat) (st : ParseState),
    (∀ l ∈ lines, goHasPfx l "#EXTM3U" = false) →
    (parseLinesAux b i st lines).1.isExtM3U = st.isExtM3U := by
  induction lines with
  | nil => intro i st _; rfl
  | cons l rest ih =>
    intro i st h
    have hl := parseLine_isExtM3U b i st l (h l (List.mem_cons_self _ _))
    unfold parseLinesAux
    rcases hpl : parseLine b i st l with ⟨st1, err⟩
    rw [hpl] at hl
    cases err with
    | none =>
      rw [ih (i + 1) st1 (fun x hx => h x (List.mem_cons_of_mem _ hx))]
      exact hl
    | some e => exact hl

/-- C9: a playlist text in which no line carries the extended-M3U header
prefix never parses — however well-formed the remaining tags are — and the
header check runs only after the full pass: in the concrete instance the
returned playlist holds the entry and target duration gathered from the
complete pass, and only then is the missing-header error reported. -/
theorem parse_missing_header_fails :
    (∀ (pl : Plist) (u str : String),
        (∀ l ∈ goSplit str '\n', goHasPfx l "#EXTM3U" = false) →
        (Parse pl u str).2 ≠ none) ∧
    Parse {} exampleVariantUrl "#EXT-X-TARGETDURATION:5\nseg.ts" =
      ({ plType := .VariantPlist,
         Entries := [{ MediaSequence := 0, URL := "https://host/path/seg.ts" }],
         CurrentMediaSequence := 1, TargetDurationSec := 5 }, some .notExtM3U) := by
  constructor
  · intro pl u str h
    have hext := parseLinesAux_isExtM3U (parseBaseUrl u) (goSplit str '\n') 0
      { pl := pl, isExtM3U := false, currentEntry := {} } h
    unfold Parse
    dsimp only
    rcases hloop : parseLinesAux (parseBaseUrl u) 0
        { pl := pl, isExtM3U := false, currentEntry := {} } (goSplit str '\n') with ⟨st, err⟩
    rw [hloop] at hext
    cases err with
    | none =>
      have hf : st.isExtM3U = false := hext
      simp [hf]
    | some e => simp
  · decide

/-- C9 witness: a well-formed variant body without the header line fails. -/
theorem parse_missing_header_fails_witness :
    (Parse {} exampleVariantUrl "#EXTINF:10,\nseg1.ts").2 ≠ none :=
  parse_missing_header_fails.1 {} exampleVariantUrl "#EXTINF:10,\nseg1.ts" (by decide)

/-- C6 counterexample: a second media-sequence tag with a smaller value
resets the cursor mid-pass — the cursor trace `[0, 0, 100, 5]` is not
monotone, so the cursor does take a value smaller than one it held earlier
within a single parse pass. -/
theorem parse_cursor_monotone_cex :
    parseCursorTrace {} exampleVariantUrl
        "#EXTM3U\n#EXT-X-MEDIA-SEQUENCE:100\n#EXT-X-MEDIA-SEQUENCE:5" = [0, 0, 100, 5] ∧
    ¬ List.Chain' (· ≤ ·) (parseCursorTrace {} exampleVariantUrl
        "#EXTM3U\n#EXT-X-MEDIA-SEQUENCE:100\n#EXT-X-MEDIA-SEQUENCE:5") := by
  have h : parseCursorTrace {} exampleVariantUrl
      "#EXTM3U\n#EXT-X-MEDIA-SEQUENCE:100\n#EXT-X-MEDIA-SEQUENCE:5" = [0, 0, 100, 5] := by
    decide
  refine ⟨h, ?_⟩
  rw [h]
  intro hc
  have h1 := (List.chain'_cons.1 (List.chain'_cons.1 (List.chain'_cons.1 hc).2).2).1
  omega

/-- Monotonicity of the cursor trace on inputs without media-sequence tags,
provided the cursor cannot wrap. -/
theorem cursorTraceAux_chain (b : String) (lines : List String) :
    ∀ (i : Nat) (st : ParseState),
    (∀ l ∈ lines, goHasPfx l "#EXT-X-MEDIA-SEQUENCE" = false) →
    st.pl.CurrentMediaSequence + lines.length < 2 ^ 64 →
    List.Chain' (· ≤ ·) (st.pl.CurrentMediaSequence :: cursorTraceAux b i st lines) := by
  induction lines with
  | nil => intro i st _ _; simp [cursorTraceAux]
  | cons l rest ih =>
    intro i st h hb
    have hlen : (l :: rest).length = rest.length + 1 := rfl
    rw [hlen] at hb
    have hstep := parseLine_cursor b i st l
    rcases hpl : parseLine b i st l with ⟨st1, err⟩
    rw [hpl] at hstep
    have hnums : st1.pl.CurrentMediaSequence = st.pl.CurrentMediaSequence ∨
        st1.pl.CurrentMediaSequence = st.pl.CurrentMediaSequence + 1 := by
      rcases hstep with h1 | h1 | h1
      · exact Or.inl h1
      · refine Or.inr ?_
        rw [h1, Nat.mod_eq_of_lt (by omega)]
      · rw [h l (List.mem_cons_self _ _)] at h1
        cases h1
    unfold cursorTraceAux
    rw [hpl]
    cases err with
    | none =>
      refine List.chain'_cons.2 ⟨by rcases hnums with h1 | h1 <;> omega, ?_⟩
      exact ih (i + 1) st1 (fun x hx => h x (List.mem_cons_of_mem _ hx))
        (by rcases hnums with h1 | h1 <;> omega)
    | some e =>
      refine List.chain'_cons.2 ⟨by rcases hnums with h1 | h1 <;> omega, ?_⟩
      exact List.chain'_singleton _

/-- C6 (amended): within a single parse pass the cursor is modified only by
media-sequence tag lines — which assign it unconditionally and may lower it
— and by reference lines, which advance it by one modulo `2 ^ 64`;
consequently, on an input free of media-sequence tag lines whose line count
cannot wrap the cursor, the cursor never takes a value smaller than a value
it held earlier in the pass. -/
theorem parse_cursor_monotone :
    (∀ (b : String) (i : Nat) (st : ParseState) (line : String),
      (parseLine b i st line).1.pl.CurrentMediaSequence = st.pl.CurrentMediaSequence ∨
      (parseLine b i st line).1.pl.CurrentMediaSequence =
        (st.pl.CurrentMediaSequence + 1) % 2 ^ 64 ∨
      goHasPfx line "#EXT-X-MEDIA-SEQUENCE" = true) ∧
    (∀ (pl : Plist) (u str : String),
      (∀ l ∈ goSplit str '\n', goHasPfx l "#EXT-X-MEDIA-SEQUENCE" = false) →
      pl.CurrentMediaSequence + (goSplit str '\n').length < 2 ^ 64 →
      List.Chain' (· ≤ ·) (parseCursorTrace pl u str)) := by
  refine ⟨parseLine_cursor, ?_⟩
  intro pl u str h hb
  exact cursorTraceAux_chain (parseBaseUrl u) (goSplit str '\n') 0
    { pl := pl, isExtM3U := false, currentEntry := {} } h hb

/-- C6 witness: on a tag-free playlist the trace is monotone. -/
theorem parse_cursor_monotone_witness :
    List.Chain' (· ≤ ·)
      (parseCursorTrace {} exampleVariantUrl "#EXTM3U\n#EXTINF:10,\nseg1.ts") :=
  parse_cursor_monotone.2 {} exampleVariantUrl "#EXTM3U\n#EXTINF:10,\nseg1.ts"
    (by decide) (by decide)

/-- Processing any number of benign lines (blank, or comments that are not
extended tags) before a bad segment-info tag: the error reports the running
loop index — Go's 0-based `range` index — of the offending line. -/
theorem parseLinesAux_benign (b : String) (pre : List String) :
    ∀ (i : Nat) (st : ParseState),
    (∀ l ∈ pre, l = "" ∨ (goHasPfx l "#" = true ∧ goHasPfx l "#EXT" = false)) →
    parseLinesAux b i st (pre ++ ["#EXTINF:abc,"]) =
      ({ st with pl := { st.pl with plType := .VariantPlist }, currentEntry := {} },
        some (.lineErr (i + pre.length)
          "unable to parse segment duration from EXTINF tag")) := by
  induction pre with
  | nil =>
    intro i st _
    rw [List.nil_append]
    rw [parseLinesAux_cons_err b i st _ _ [] _ (parseLine_inf_abc b i st)]
    simp
  | cons l rest ih =>
    intro i st h
    rw [List.cons_append]
    rcases h l (List.mem_cons_self _ _) with rfl | ⟨h1, h2⟩
    · rw [parseLinesAux_cons_ok b i st st _ _ (parseLine_blank b i st),
        ih (i + 1) st (fun x hx => h x (List.mem_cons_of_mem _ hx))]
      have harith : i + 1 + rest.length = i + (rest.length + 1) := by omega
      rw [harith]
      rfl
    · rw [parseLinesAux_cons_ok b i st st _ _ (parseLine_comment b i st l h1 h2),
        ih (i + 1) st (fun x hx => h x (List.mem_cons_of_mem _ hx))]
      have harith : i + 1 + rest.length = i + (rest.length + 1) := by omega
      rw [harith]
      rfl

/-- C7 counterexample: a segment-info tag with a non-numeric duration on the
first — 1-based number 1 — line of the playlist yields an error annotated
with line 0: the annotation is the 0-based `range` index, not the 1-based
line number. -/
theorem parse_error_line_number_cex :
    goSplit "#EXTINF:abc," '\n' = ["#EXTINF:abc,"] ∧
    (Parse {} exampleVariantUrl "#EXTINF:abc,").2 =
      some (.lineErr 0 "unable to parse segment duration from EXTINF tag") := by
  constructor <;> decide

/-- C7 (amended): parse errors are annotated with the 0-based index of the
offending line (the index Go's `range` over the split lines produces); a
segment-info tag `EXTINF:abc,` preceded by any run of blank or plain
comment lines fails with exactly the count of those lines as its reported
line index. -/
theorem parse_error_line_number (u : String) (pre : List String)
    (h : ∀ l ∈ pre, l = "" ∨ (goHasPfx l "#" = true ∧ goHasPfx l "#EXT" = false))
    (hn : ∀ l ∈ pre, '\n' ∉ l.data) :
    (Parse {} u (mkText (pre ++ ["#EXTINF:abc,"]))).2 =
      some (.lineErr pre.length "unable to parse segment duration from EXTINF tag") := by
  have hsplit : goSplit (mkText (pre ++ ["#EXTINF:abc,"])) '\n' = pre ++ ["#EXTINF:abc,"] := by
    refine goSplit_mkText _ (by simp) ?_
    intro l hl
    rcases List.mem_append.1 hl with hl1 | hl1
    · exact hn l hl1
    · rcases List.mem_singleton.1 hl1 with rfl
      decide
  unfold Parse
  dsimp only
  rw [hsplit, parseLinesAux_benign (parseBaseUrl u) pre 0 _ h]
  simp

/-- C7 witness: one comment line before the bad tag gives index 1. -/
theorem parse_error_line_number_witness :
    (Parse {} exampleVariantUrl (mkText (["# a comment"] ++ ["#EXTINF:abc,"]))).2 =
      some (.lineErr 1 "unable to parse segment duration from EXTINF tag") := by
  have h := parse_error_line_number exampleVariantUrl ["# a comment"]
    (by decide) (by decide)
  exact h

/-- The playlist text behind the C5 theorems: well-formed apart from the
missing header, so every line is processed before the failure. -/
def partialParseText : String :=
  "#EXT-X-MEDIA-SEQUENCE:5\n#EXT-X-TARGETDURATION:7\n#EXTINF:10,\nseg.ts"

/-- C5 counterexample: a parse that fails (missing extended-M3U header)
leaves partial parse data — an entry, an advanced cursor, a target duration
— in the caller-visible `Plist`, so the failing `Parse` is not atomic in
the claimed sense. -/
theorem parse_error_partial_state_cex :
    (Parse {} exampleVariantUrl partialParseText).2 ≠ none ∧
    (Parse {} exampleVariantUrl partialParseText).1 ≠ ({} : Plist) ∧
    (Parse {} exampleVariantUrl partialParseText).1.Entries ≠ [] := by
  refine ⟨?_, ?_, ?_⟩ <;> decide

/-- C5 (amended): on failure `Parse` rejects the file by returning the
error — here, the missing-header error raised only after the full pass —
but the in-out `Plist` retains the partial parse state accumulated before
the failure (entries, cursor, type, target duration); atomicity holds only
because both call sites discard the `Plist` whenever the error is
non-nil. -/
theorem parse_error_partial_state :
    Parse {} exampleVariantUrl partialParseText =
      ({ plType := .VariantPlist,
         Entries := [{ MediaSequence := 5, DurationSec := 10,
                       URL := "https://host/path/seg.ts" }],
         CurrentMediaSequence := 6, TargetDurationSec := 7 }, some .notExtM3U) := by
  decide

/-- C8 counterexample: the code tests `strings.HasPrefix(line, "http")`,
not "begins with a scheme" — the relative reference `httpx.ts` contains no
colon, hence begins with no scheme, yet it is stored verbatim instead of
being joined onto the playlist's base directory as the claim requires. -/
theorem parse_ref_resolution_cex :
    (Parse {} exampleVariantUrl "#EXTM3U\nhttpx.ts").1.Entries.map (fun e => e.URL) =
      ["httpx.ts"] ∧
    ¬(':' ∈ "httpx.ts".data) ∧
    goJoinPath (parseBaseUrl exampleVariantUrl) "httpx.ts" = "https://host/path/httpx.ts" ∧
    ("httpx.ts" : String) ≠ "https://host/path/httpx.ts" := by
  refine ⟨?_, ?_, ?_, ?_⟩ <;> decide

/-- C8 (amended): a plain reference line beginning with the four characters
`http` becomes the entry's URL verbatim, and every other reference line is
resolved by joining it onto the playlist URL with its last path component
removed; in particular `segment1.ts` under `https://host/path/live.m3u8`
resolves to `https://host/path/segment1.ts`. -/
theorem parse_ref_resolution (pl : Plist) (u r : String)
    (h1 : goHasPfx r "#" = false) (h2 : r.data ≠ []) (h3 : '\n' ∉ r.data) :
    (Parse pl u (mkText ["#EXTM3U", r])).2 = none ∧
    (Parse pl u (mkText ["#EXTM3U", r])).1.Entries =
      pl.Entries ++
        [{ MediaSequence := pl.CurrentMediaSequence,
           URL := if goHasPfx r "http" then r else goJoinPath (parseBaseUrl u) r }] := by
  have hsplit : goSplit (mkText ["#EXTM3U", r]) '\n' = ["#EXTM3U", r] := by
    refine goSplit_mkText _ (by simp) ?_
    intro l hl
    rcases List.mem_cons.1 hl with rfl | hl2
    · decide
    · rcases List.mem_singleton.1 hl2 with rfl
      exact h3
  constructor <;>
    · unfold Parse
      dsimp only
      rw [hsplit]
      rw [parseLinesAux_cons_ok _ 0 _ _ _ _ (parseLine_extm3u _ 0 _)]
      rw [parseLinesAux_cons_ok _ 1 _ _ _ _ (parseLine_ref _ 1 _ r h1 h2)]
      rfl

/-- C8 witness: the concrete relative reference of the claim. -/
theorem parse_ref_resolution_witness :
    (Parse {} exampleVariantUrl (mkText ["#EXTM3U", "segment1.ts"])).1.Entries.map
        (fun e => e.URL) = ["https://host/path/segment1.ts"] := by
  have h := parse_ref_resolution {} exampleVariantUrl "segment1.ts"
    (by decide) (by decide) (by decide)
  rw [h.2]
  decide

/-- A value accepted by `goParseUint` is below `2 ^ 64`. -/
theorem goParseUint_lt (s : String) (S : Nat) (h : goParseUint s = some S) : S < 2 ^ 64 := by
  unfold goParseUint at h
  split at h
  · cases h
  · split at h
    · cases h
    · split at h
      · injection h with h1
        omega
      · cases h

/-- Successful digit accumulation certifies every character as a digit. -/
theorem digitsValAux_digit (l : List Char) :
    ∀ (acc v : Nat), digitsValAux acc l = some v → ∀ c ∈ l, goDigitVal c ≠ none := by
  induction l with
  | nil => intro acc v _ c hc; cases hc
  | cons x xs ih =>
    intro acc v h c hc
    rw [digitsValAux] at h
    rcases hd : goDigitVal x with _ | d
    · rw [hd] at h
      cases h
    · rw [hd] at h
      rcases List.mem_cons.1 hc with rfl | hc2
      · rw [hd]
        exact fun he => by cases he
      · exact ih _ v h c hc2

/-- The value text of an accepted media-sequence tag contains no newline
(it consists solely of decimal digits). -/
theorem goParseUint_no_newline (s : String) (S : Nat) (h : goParseUint s = some S) :
    '\n' ∉ s.data := by
  intro hmem
  unfold goParseUint at h
  split at h
  · cases h
  · rcases hd : digitsVal s.data with _ | v
    · rw [hd] at h
      cases h
    · exact digitsValAux_digit s.data 0 v hd '\n' hmem rfl

/-- The parse state after one segment-info/reference pair: the kind is
variant, the pending entry was completed with the cursor value and
appended, and the cursor advanced once. -/
def pairStep (b : String) (st : ParseState) (e : Entry) (r : String) : ParseState :=
  { st with
      pl := { st.pl with
                plType := .VariantPlist,
                CurrentMediaSequence := (st.pl.CurrentMediaSequence + 1) % 2 ^ 64,
                Entries := st.pl.Entries ++
                  [{ e with
                      URL := if goHasPfx r "http" then r else goJoinPath b r,
                      MediaSequence := st.pl.CurrentMediaSequence }] },
      currentEntry := {} }

/-- A segment-info tag followed by a reference line advances the loop two
lines and transforms the state by `pairStep`. -/
theorem parseLinesAux_pair (b : String) (i : Nat) (st : ParseState) (d : String) (e : Entry)
    (r : String) (rest : List String) (hinf : parseInfTag {} ("EXTINF:" ++ d) = .ok e)
    (hrp : goHasPfx r "#" = false) (hrne : r.data ≠ []) :
    parseLinesAux b i st (("#EXTINF:" ++ d) :: r :: rest) =
      parseLinesAux b (i + 2) (pairStep b st e r) rest := by
  rw [parseLinesAux_cons_ok b i st _ _ _ (parseLine_inf b i st d e hinf)]
  rw [parseLinesAux_cons_ok b (i + 1) _ _ _ _ (parseLine_ref b (i + 1) _ r hrp hrne)]
  rfl

/-- Processing the flattened segment-pair lines of a well-formed variant
body: every pair appends one entry stamped with the running cursor, the
cursor advances once per pair modulo `2 ^ 64`, and the header flag is
untouched. -/
theorem parseLinesAux_segPairs (b : String) (segs : List (String × Entry × String)) :
    ∀ (i : Nat) (st : ParseState),
    (∀ p ∈ segs, parseInfTag {} ("EXTINF:" ++ p.1) = .ok p.2.1 ∧
        goHasPfx p.2.2 "#" = false ∧ p.2.2.data ≠ []) →
    st.pl.CurrentMediaSequence < 2 ^ 64 →
    (parseLinesAux b i st (segs.flatMap (fun p => ["#EXTINF:" ++ p.1, p.2.2]))).2 = none ∧
    (parseLinesAux b i st
        (segs.flatMap (fun p => ["#EXTINF:" ++ p.1, p.2.2]))).1.pl.CurrentMediaSequence =
      (st.pl.CurrentMediaSequence + segs.length) % 2 ^ 64 ∧
    (parseLinesAux b i st
        (segs.flatMap (fun p => ["#EXTINF:" ++ p.1, p.2.2]))).1.pl.Entries.map
        (fun e => e.MediaSequence) =
      st.pl.Entries.map (fun e => e.MediaSequence) ++
        (List.range segs.length).map
          (fun j => (st.pl.CurrentMediaSequence + j) % 2 ^ 64) ∧
    (parseLinesAux b i st (segs.flatMap (fun p => ["#EXTINF:" ++ p.1, p.2.2]))).1.isExtM3U =
      st.isExtM3U := by
  induction segs with
  | nil =>
    intro i st _ hb
    refine ⟨rfl, ?_, ?_, rfl⟩
    · show st.pl.CurrentMediaSequence = (st.pl.CurrentMediaSequence + 0) % 2 ^ 64
      rw [Nat.add_zero, Nat.mod_eq_of_lt hb]
    · show st.pl.Entries.map (fun e => e.MediaSequence) = _
      simp
  | cons p rest ih =>
    intro i st h hb
    obtain ⟨hinf, hrefp, hrefne⟩ := h p (List.mem_cons_self _ _)
    have hflat : ((p :: rest).flatMap fun q => ["#EXTINF:" ++ q.1, q.2.2]) =
        ("#EXTINF:" ++ p.1) :: p.2.2 ::
          rest.flatMap (fun q => ["#EXTINF:" ++ q.1, q.2.2]) := by
      simp
    rw [hflat, parseLinesAux_pair b i st p.1 p.2.1 p.2.2 _ hinf hrefp hrefne]
    obtain ⟨g1, g2, g3, g4⟩ := ih (i + 2) (pairStep b st p.2.1 p.2.2)
      (fun q hq => h q (List.mem_cons_of_mem _ hq))
      (by
        show (st.pl.CurrentMediaSequence + 1) % 2 ^ 64 < 2 ^ 64
        exact Nat.mod_lt _ (by norm_num))
    refine ⟨g1, ?_, ?_, g4⟩
    · rw [g2]
      dsimp only [pairStep]
      rw [Nat.mod_add_mod, List.length_cons]
      congr 1
      omega
    · rw [g3]
      dsimp only [pairStep]
      rw [List.map_append, List.append_assoc]
      congr 1
      rw [List.length_cons, List.range_succ_eq_map]
      simp only [List.map_cons, List.map_map, List.map_nil, List.singleton_append]
      refine congrArg₂ List.cons ?_ ?_
      · omega
      · refine List.map_congr_left ?_
        intro j _
        rw [Nat.mod_add_mod]
        show (st.pl.CurrentMediaSequence + 1 + j) % 2 ^ 64 =
          (st.pl.CurrentMediaSequence + Nat.succ j) % 2 ^ 64
        congr 1
        omega

/-- The two header lines of a well-formed variant playlist — the
extended-M3U header and a media-sequence tag with value text `sStr` — set
the header flag and the cursor, leaving a fresh state otherwise. -/
theorem parseLinesAux_variant_header (b : String) (sStr : String) (S : Nat)
    (rest : List String) (hS : goParseUint sStr = some S) :
    parseLinesAux b 0 { pl := {}, isExtM3U := false, currentEntry := {} }
        ("#EXTM3U" :: ("#EXT-X-MEDIA-SEQUENCE:" ++ sStr) :: rest) =
      parseLinesAux b 2
        { pl := { plType := .VariantPlist, Entries := [], CurrentMediaSequence := S,
                  TargetDurationSec := 0 },
          isExtM3U := true, currentEntry := {} } rest := by
  rw [parseLinesAux_cons_ok b 0 _ _ _ _ (parseLine_extm3u b 0 _)]
  rw [parseLinesAux_cons_ok b 1 _ _ _ _ (parseLine_mediaseq b 1 _ sStr S hS)]

/-- C4 (amended): a well-formed variant playlist whose media-sequence tag
value text denotes `S` followed by `M` segment-info/reference pairs parses
without error into `M` entries whose media sequences are
`(S + i) % 2 ^ 64` for `i = 0, …, M - 1` in source order, with ending
cursor `(S + M) % 2 ^ 64` — the sequence arithmetic is Go `uint64`
arithmetic, so it wraps at `2 ^ 64` instead of growing unboundedly. -/
theorem parse_variant_playlist (u sStr : String) (S : Nat)
    (segs : List (String × Entry × String))
    (hS : goParseUint sStr = some S)
    (hsegs : ∀ p ∈ segs, parseInfTag {} ("EXTINF:" ++ p.1) = .ok p.2.1 ∧
        '\n' ∉ p.1.data ∧ goHasPfx p.2.2 "#" = false ∧ p.2.2.data ≠ [] ∧
        '\n' ∉ p.2.2.data) :
    (Parse {} u (variantPlaylistText sStr segs)).2 = none ∧
    (Parse {} u (variantPlaylistText sStr segs)).1.Entries.map (fun e => e.MediaSequence) =
      (List.range segs.length).map (fun j => (S + j) % 2 ^ 64) ∧
    (Parse {} u (variantPlaylistText sStr segs)).1.CurrentMediaSequence =
      (S + segs.length) % 2 ^ 64 ∧
    (Parse {} u (variantPlaylistText sStr segs)).1.Entries.length = segs.length := by
  have hSlt : S < 2 ^ 64 := goParseUint_lt sStr S hS
  have hsplit : goSplit (variantPlaylistText sStr segs) '\n' =
      "#EXTM3U" :: ("#EXT-X-MEDIA-SEQUENCE:" ++ sStr) ::
        segs.flatMap (fun p => ["#EXTINF:" ++ p.1, p.2.2]) := by
    refine goSplit_mkText (variantLines sStr segs) (by simp [variantLines]) ?_
    intro l hl
    unfold variantLines at hl
    rcases List.mem_cons.1 hl with rfl | hl2
    · decide
    · rcases List.mem_cons.1 hl2 with rfl | hl3
      · have hd : ("#EXT-X-MEDIA-SEQUENCE:" ++ sStr).data =
            "#EXT-X-MEDIA-SEQUENCE:".data ++ sStr.data := rfl
        rw [hd]
        intro hmem
        rcases List.mem_append.1 hmem with hm | hm
        · revert hm
          decide
        · exact goParseUint_no_newline sStr S hS hm
      · obtain ⟨p, hp, hlp⟩ := List.mem_flatMap.1 hl3
        rcases List.mem_cons.1 hlp with rfl | hlp2
        · have hd : ("#EXTINF:" ++ p.1).data = "#EXTINF:".data ++ p.1.data := rfl
          rw [hd]
          intro hmem
          rcases List.mem_append.1 hmem with hm | hm
          · revert hm
            decide
          · exact (hsegs p hp).2.1 hm
        · rcases List.mem_singleton.1 hlp2 with rfl
          exact (hsegs p hp).2.2.2.2
  unfold Parse
  dsimp only
  rw [hsplit, parseLinesAux_variant_header (parseBaseUrl u) sStr S _ hS]
  obtain ⟨g1, g2, g3, g4⟩ := parseLinesAux_segPairs (parseBaseUrl u) segs 2
    { pl := { plType := .VariantPlist, Entries := [], CurrentMediaSequence := S,
              TargetDurationSec := 0 },
      isExtM3U := true, currentEntry := {} }
    (fun q hq => ⟨(hsegs q hq).1, (hsegs q hq).2.2.1, (hsegs q hq).2.2.2.1⟩) hSlt
  rcases hfin : parseLinesAux (parseBaseUrl u) 2
      { pl := { plType := .VariantPlist, Entries := [], CurrentMediaSequence := S,
                TargetDurationSec := 0 },
        isExtM3U := true, currentEntry := {} }
      (segs.flatMap (fun p => ["#EXTINF:" ++ p.1, p.2.2])) with ⟨stF, errF⟩
  rw [hfin] at g1 g2 g3 g4
  dsimp only at g1 g2 g3 g4
  subst g1
  dsimp only
  rw [g4]
  refine ⟨by simp, by simpa using g3, by simpa using g2, ?_⟩
  have hlen := congrArg List.length g3
  simpa using hlen

/-- C4 counterexample: with the largest value `ParseUint` accepts,
`S = 2 ^ 64 - 1`, a well-formed one-segment playlist parses, the entry gets
sequence `2 ^ 64 - 1 = S`, but the `uint64` increment wraps: the ending
cursor is `0`, not `S + M = 2 ^ 64`. -/
theorem parse_variant_playlist_cex :
    (Parse {} exampleVariantUrl
        "#EXTM3U\n#EXT-X-MEDIA-SEQUENCE:18446744073709551615\n#EXTINF:10,\nseg.ts").2 =
      none ∧
    (Parse {} exampleVariantUrl
        "#EXTM3U\n#EXT-X-MEDIA-SEQUENCE:18446744073709551615\n#EXTINF:10,\nseg.ts").1.Entries.map
        (fun e => e.MediaSequence) = [18446744073709551615] ∧
    (Parse {} exampleVariantUrl
        "#EXTM3U\n#EXT-X-MEDIA-SEQUENCE:18446744073709551615\n#EXTINF:10,\nseg.ts").1.CurrentMediaSequence =
      0 ∧
    (0 : Nat) ≠ 18446744073709551615 + 1 := by
  refine ⟨?_, ?_, ?_, ?_⟩ <;> decide

/-- C4 witness: the amended theorem at `S = 3` with two segment pairs. -/
theorem parse_variant_playlist_witness :
    (Parse {} exampleVariantUrl
        (variantPlaylistText "3"
          [("10,title", { DurationSec := 10, ExtraInfo := "title" }, "seg1.ts"),
           ("7,", { DurationSec := 7 }, "http://cdn/seg2.ts")])).1.Entries.map
        (fun e => e.MediaSequence) = [3, 4] ∧
    (Parse {} exampleVariantUrl
        (variantPlaylistText "3"
          [("10,title", { DurationSec := 10, ExtraInfo := "title" }, "seg1.ts"),
           ("7,", { DurationSec := 7 }, "http://cdn/seg2.ts")])).1.CurrentMediaSequence =
      5 := by
  have h := parse_variant_playlist exampleVariantUrl "3" 3
    [("10,title", { DurationSec := 10, ExtraInfo := "title" }, "seg1.ts"),
     ("7,", { DurationSec := 7 }, "http://cdn/seg2.ts")]
    (by decide) (by decide)
  refine ⟨?_, ?_⟩
  · rw [h.2.1]
    decide
  · rw [h.2.2.1]
    decide

end Hlscheck
